import Mathlib

/-!
Verification of the append-once write protocol of the Badminton-Beta
attendance app (sources: 출석.py, pages/페널티.py, common_io.py).

The remote worksheet is modelled as a list of rows (each row a list of
strings); the first row is the header, matching gspread's view of a sheet.
Remote calls that can fail (gspread/network) are modelled by explicit
outcome oracles: each retry attempt is driven by an `AttemptEnv` (or
`AppOutcome`) value saying whether the underlying call succeeded, raised an
APIError with a given message, raised a network-layer exception, or raised
some other exception.  Python floats (retry delays) are modelled as exact
rationals; `time.sleep` durations are recorded in a trace instead of
actually sleeping, and `random.random()` is an oracle `Nat → ℚ` assumed to
land in [0, 1).
-/

namespace Badminton

/-! ## Python string primitives -/

/-- Characters removed by Python `str.strip()` (the ASCII whitespace set;
the handful of further Unicode space characters Python also strips play no
role in this code base). -/
def isPySpace (c : Char) : Bool :=
  c = ' ' || c = '\t' || c = '\n' || c = '\r' || c = '\x0b' || c = '\x0c'

/-- Python `s.strip()`: drop leading and trailing whitespace. -/
def pyStrip (s : String) : String :=
  (((s.data.dropWhile isPySpace).reverse.dropWhile isPySpace).reverse).asString

/-- Python truthiness-based `x or ""` applied to an optional cell value
(`None` and the empty string are falsy). -/
def pyOrEmpty : Option String → String
  | none => ""
  | some s => if s = "" then "" else s

/-! ## Worksheet model and the token read paths (출석.py lines 103-114 and
158-183) -/

/-- A worksheet: all rows including the header row, each cell a string. -/
abbrev Worksheet := List (List String)

/-- Cell of a row at 1-based column `j` (gspread pads missing cells with
the empty string). -/
def cellAt (row : List String) (j : Nat) : String := row.getD (j - 1) ""

/-- gspread `ws.find("토큰")` projected to the column: scan rows top to
bottom, each left to right, and return the 1-based column of the first
cell equal to "토큰" (`None` when absent). -/
def findTokenCol (ws : Worksheet) : Option Nat :=
  ws.findSome? (fun row => (row.findIdx? (fun c => c = "토큰")).map (· + 1))

/-- `ws.col_values(j)[1:]`: column `j` of every row below the header. -/
def colValuesBody (ws : Worksheet) (j : Nat) : List String :=
  (ws.map (fun r => cellAt r j)).drop 1

/-- The set comprehension shared by both read paths:
`{str(v).strip() for v in vals if v}` (filter truthy, then strip).
Python builds a set; a list with the same members is used here and set
claims are stated via membership / `toFinset`. -/
def tokensFrom (vals : List String) : List String :=
  (vals.filter (fun v => v ≠ "")).map pyStrip

/-- Tokens obtained through the cheap column path. -/
def colTokens (ws : Worksheet) (j : Nat) : List String :=
  tokensFrom (colValuesBody ws j)

/-- `r.get("토큰", "")` over the record built by `get_all_records` for row
`row` under header `hdr` (value under the first header cell equal to the
key; a missing key or a short row gives ""). -/
def recGet (hdr row : List String) (key : String) : String :=
  match hdr.findIdx? (fun c => c = key) with
  | some i => row.getD i ""
  | none => ""

/-- Fallback path of both readers:
`{str(r.get("토큰","")).strip() for r in ws.get_all_records() if r.get("토큰")}`. -/
def recordTokens (ws : Worksheet) : List String :=
  tokensFrom ((ws.drop 1).map (fun r => recGet (ws.headD []) r "토큰"))

/-- `_get_token_col_index(ws, key)` (출석.py 158-165): returns the column
of the "토큰" header cell, or `None`; any exception from `ws.find` is
caught and also yields `None`.  `findOk` is the oracle for whether the
underlying `find` call succeeded. -/
def _get_token_col_index (ws : Worksheet) (findOk : Bool) : Option Nat :=
  if findOk then findTokenCol ws else none

/-- `_read_tokens_fresh(ws)` (출석.py 103-114): use the token column when
`_get_token_col_index` returned a truthy index, otherwise fall back to the
full-record scan; any exception (oracle `readOk = false`) is caught and
yields the empty set. -/
def _read_tokens_fresh (ws : Worksheet) (findOk readOk : Bool) : List String :=
  if readOk then
    match _get_token_col_index ws findOk with
    | some (j + 1) => colTokens ws (j + 1)
    | _ => recordTokens ws
  else []

/-- `existing_tokens(ws, sheet_key)` (출석.py 167-183): identical read
logic behind a 30s `st.cache_data` TTL (the cache only affects freshness,
so the function is modelled on its inputs). -/
def existing_tokens (ws : Worksheet) (findOk readOk : Bool) : List String :=
  if readOk then
    match _get_token_col_index ws findOk with
    | some (j + 1) => colTokens ws (j + 1)
    | _ => recordTokens ws
  else []

/-- `str(values[-1]).strip()` (출석.py line 125): the idempotency token of
a candidate row is its stripped last element.  (`values[-1]` on an empty
list raises IndexError in Python; the handlers always pass 7-element rows,
and theorems below assume a nonempty row.) -/
def rowToken (values : List String) : String := pyStrip (values.getLastD "")

/-- Number of data rows whose token-column cell strips to `T` (column `j`,
1-based).  This is the "rows bearing token T" measure of the claims. -/
def countToken (ws : Worksheet) (j : Nat) (T : String) : Nat :=
  ((ws.drop 1).filter (fun r => pyStrip (cellAt r j) = T)).length

/-! ## SHA-1 and `daily_token` (출석.py lines 95-101)

`daily_token` calls `hashlib.sha1`; the library hash is embedded here as
the standard SHA-1 algorithm (FIPS 180) over byte lists, with 32-bit words
as naturals reduced mod 2^32, checked below against the published test
vectors. -/

/-- UTF-8 encoding of one code point (Python `str.encode("utf-8")`). -/
def utf8Char (c : Char) : List Nat :=
  let n := c.toNat
  if n < 128 then [n]
  else if n < 2048 then [192 + n / 64, 128 + n % 64]
  else if n < 65536 then [224 + n / 4096, 128 + n / 64 % 64, 128 + n % 64]
  else [240 + n / 262144, 128 + n / 4096 % 64, 128 + n / 64 % 64, 128 + n % 64]

/-- UTF-8 encoding of a string as a byte list. -/
def utf8Bytes (s : String) : List Nat :=
  s.data.foldr (fun c acc => utf8Char c ++ acc) []

/-- Reduce to a 32-bit word. -/
def w32 (n : Nat) : Nat := n % 4294967296

/-- Rotate a 32-bit word left by `k`. -/
def rotl (k n : Nat) : Nat := w32 (n <<< k) ||| (n >>> (32 - k))

/-- SHA-1 round function. -/
def sha1F (t b c d : Nat) : Nat :=
  if t < 20 then (b &&& c) ||| ((4294967295 - b) &&& d)
  else if t < 40 then b ^^^ c ^^^ d
  else if t < 60 then (b &&& c) ||| (b &&& d) ||| (c &&& d)
  else b ^^^ c ^^^ d

/-- SHA-1 round constants. -/
def sha1K (t : Nat) : Nat :=
  if t < 20 then 0x5A827999
  else if t < 40 then 0x6ED9EBA1
  else if t < 60 then 0x8F1BBCDC
  else 0xCA62C1D6

/-- Big-endian 8-byte encoding. -/
def be64 (n : Nat) : List Nat :=
  [n >>> 56 % 256, n >>> 48 % 256, n >>> 40 % 256, n >>> 32 % 256,
   n >>> 24 % 256, n >>> 16 % 256, n >>> 8 % 256, n % 256]

/-- Big-endian 4-byte encoding. -/
def be32 (n : Nat) : List Nat :=
  [n >>> 24 % 256, n >>> 16 % 256, n >>> 8 % 256, n % 256]

/-- SHA-1 message padding: append 0x80, zero-pad to 56 mod 64, then the
64-bit big-endian bit length. -/
def sha1Pad (msg : List Nat) : List Nat :=
  let len := msg.length
  let k := (120 - (len + 1) % 64) % 64
  msg ++ [128] ++ List.replicate k 0 ++ be64 (len * 8)

/-- Big-endian 32-bit words of a 64-byte block. -/
def toWords : List Nat → List Nat
  | a :: b :: c :: d :: rest => (a * 16777216 + b * 65536 + c * 256 + d) :: toWords rest
  | _ => []

/-- Extend the 16 block words by `n` more schedule words. -/
def sha1Expand (acc : List Nat) : Nat → List Nat
  | 0 => acc
  | n + 1 =>
    let i := acc.length
    let wi := rotl 1 ((acc.getD (i - 3) 0) ^^^ (acc.getD (i - 8) 0) ^^^
                      (acc.getD (i - 14) 0) ^^^ (acc.getD (i - 16) 0))
    sha1Expand (acc ++ [wi]) n

/-- One SHA-1 compression round on the five working words. -/
def sha1Round (w : List Nat) (st : Nat × Nat × Nat × Nat × Nat) (t : Nat) :
    Nat × Nat × Nat × Nat × Nat :=
  let (a, b, c, d, e) := st
  (w32 (rotl 5 a + sha1F t b c d + e + sha1K t + w.getD t 0), a, rotl 30 b, c, d)

/-- Process one 64-byte block. -/
def sha1Block (h : Nat × Nat × Nat × Nat × Nat) (block : List Nat) :
    Nat × Nat × Nat × Nat × Nat :=
  let w := sha1Expand (toWords block) 64
  let (a, b, c, d, e) := (List.range 80).foldl (sha1Round w) h
  (w32 (h.1 + a), w32 (h.2.1 + b), w32 (h.2.2.1 + c), w32 (h.2.2.2.1 + d),
   w32 (h.2.2.2.2 + e))

/-- Split a byte list into 64-byte chunks (fuel-driven so the kernel can
evaluate it). -/
def chunksGo : Nat → List Nat → List (List Nat)
  | 0, _ => []
  | _, [] => []
  | fuel + 1, l => l.take 64 :: chunksGo fuel (l.drop 64)

/-- All 64-byte chunks of a list. -/
def chunks64 (l : List Nat) : List (List Nat) := chunksGo l.length l

/-- SHA-1 digest of a byte list, as 20 bytes. -/
def sha1Digest (msg : List Nat) : List Nat :=
  let h := (chunks64 (sha1Pad msg)).foldl sha1Block
    (0x67452301, 0xEFCDAB89, 0x98BADCFE, 0x10325476, 0xC3D2E1F0)
  be32 h.1 ++ be32 h.2.1 ++ be32 h.2.2.1 ++ be32 h.2.2.2.1 ++ be32 h.2.2.2.2

/-- Lower-case hex digit. -/
def hexDigit (n : Nat) : Char :=
  if n < 10 then Char.ofNat (48 + n) else Char.ofNat (87 + n)

/-- Python `hashlib.sha1(bytes).hexdigest()`. -/
def sha1HexDigest (msg : List Nat) : String :=
  ((sha1Digest msg).foldr (fun b acc => hexDigit (b / 16) :: hexDigit (b % 16) :: acc) []).asString

/-- `daily_token(name, date_str)` (출석.py 95-101):
`hashlib.sha1((name.strip() + "|" + date_str).encode("utf-8")).hexdigest()[:8]`. -/
def daily_token (name date_str : String) : String :=
  (sha1HexDigest (utf8Bytes (pyStrip name ++ "|" ++ date_str))).take 8

/-! ## Failure classification (출석.py line 52 and 67-72, 페널티.py 73 and 84-88) -/

/-- Python `str.lower()` (ASCII case mapping, which is all the hint
matching below ever needs; list-based so the kernel can evaluate it). -/
def pyLower (s : String) : String := (s.data.map Char.toLower).asString

/-- Does `pat` occur as a contiguous sublist of `l`? -/
def listSub (pat : List Char) : List Char → Bool
  | [] => pat.isEmpty
  | c :: rest => pat.isPrefixOf (c :: rest) || listSub pat rest

/-- Substring test: does `pat` occur inside `s` (Python `pat in s`)? -/
def containsSub (s pat : String) : Bool := listSub pat.data s.data

/-- `_RETRY_HINTS` of 출석.py (note the mixed-case "backendError", which can
never occur inside the lower-cased message it is tested against). -/
def _RETRY_HINTS : List String :=
  ["rate limit", "quota", "backendError", "internal error", "timeout", "429", "503", "500"]

/-- `_RETRY_HINTS` of pages/페널티.py (all lower case). -/
def _RETRY_HINTS_pen : List String :=
  ["rate limit", "quota", "backenderror", "internal error", "timeout", "429", "503", "500"]

/-- The transient test of 출석.py applied to `str(e)`:
`msg = str(e).lower()` then hint membership plus the "deadline", "socket",
"ratelimitexceeded", "quotaexceeded" extras. -/
def transientMsg (emsg : String) : Bool :=
  let msg := pyLower emsg
  _RETRY_HINTS.any (fun h => containsSub msg h) ||
    containsSub msg "deadline" || containsSub msg "socket" ||
    containsSub msg "ratelimitexceeded" || containsSub msg "quotaexceeded"

/-- The transient test of pages/페널티.py (same shape, its own hint list). -/
def transientMsgPen (emsg : String) : Bool :=
  let msg := pyLower emsg
  _RETRY_HINTS_pen.any (fun h => containsSub msg h) ||
    containsSub msg "deadline" || containsSub msg "socket" ||
    containsSub msg "ratelimitexceeded" || containsSub msg "quotaexceeded"

/-! ## Retry loops

Each attempt of a loop is driven by an oracle value describing how the
underlying remote call(s) behaved on that attempt.  Delays are exact
rationals mirroring the float literals of the source; `time.sleep` calls
are recorded as trace events. -/

/-- Outcome of one `ws.append_row` call: success, `APIError` with message
`str(e)`, a network-layer exception (`Timeout` / `ConnectionError` /
`RequestException`, or `TimeoutError` in 페널티.py), or any other
exception. -/
inductive AppOutcome
  | ok : AppOutcome
  | apiErr : String → AppOutcome
  | netErr : AppOutcome
  | genErr : AppOutcome
deriving DecidableEq

/-- Environment of one `append_once` attempt: whether `ws.find` inside
`_get_token_col_index` succeeded, whether the column read / record scan
inside `_read_tokens_fresh` succeeded, and how `append_row` behaved. -/
structure AttemptEnv where
  findOk : Bool
  readOk : Bool
  app : AppOutcome
deriving DecidableEq

/-- One recorded `time.sleep(delay + random.random() * 0.5)`: the `delay`
variable at that moment, the `random.random()` draw, and whether the
sleep came from the `APIError` branch (cap 20.0) or the network/generic
branch (cap 12.0). -/
structure RetryEv where
  base : ℚ
  rand : ℚ
  isApi : Bool
deriving DecidableEq

/-- The actual duration slept: `delay + random.random() * 0.5`. -/
def RetryEv.sleepAmount (e : RetryEv) : ℚ := e.base + e.rand * (1 / 2)

/-- The cap applied to the next delay after this sleep. -/
def RetryEv.capQ (e : RetryEv) : ℚ := if e.isApi then 20 else 12

/-- Python `min` on rationals (kernel-evaluable form of `min(x, cap)`). -/
def pyMin (a b : ℚ) : ℚ := if a ≤ b then a else b

instance : DecidableEq (Except String Bool) := fun a b =>
  match a, b with
  | .error x, .error y =>
    if h : x = y then .isTrue (by rw [h]) else .isFalse (fun hh => h (by cases hh; rfl))
  | .error _, .ok _ => .isFalse (fun hh => by cases hh)
  | .ok _, .error _ => .isFalse (fun hh => by cases hh)
  | .ok x, .ok y =>
    if h : x = y then .isTrue (by rw [h]) else .isFalse (fun hh => h (by cases hh; rfl))

/-- Result of running a retry loop: the Python-level outcome (`Except.error
m` models an uncaught exception with message `m`), the final worksheet,
the number of successful `append_row` calls, the number of attempts made,
and the chronological sleep trace. -/
structure RunResult where
  out : Except String Bool
  ws : Worksheet
  appends : Nat
  attempts : Nat
  trace : List RetryEv
deriving DecidableEq

/-- Loop body of `safe_append_row` (출석.py 54-93): `rem` is the remaining
fuel of `for attempt in range(1, max_retries + 1)`, `attempt` the current
1-based attempt number (invariant `attempt + rem = maxR + 1`). -/
def safeAppendGo (app : Nat → AppOutcome) (jit : Nat → ℚ) (row : List String)
    (maxR : Nat) : Nat → Nat → ℚ → Worksheet → List RetryEv → RunResult
  | 0, attempt, _, ws, tr => ⟨.ok false, ws, 0, attempt - 1, tr.reverse⟩
  | rem + 1, attempt, delay, ws, tr =>
    match app attempt with
    | .ok => ⟨.ok true, ws ++ [row], 1, attempt, tr.reverse⟩
    | .apiErr m =>
      if transientMsg m = true ∧ attempt < maxR then
        safeAppendGo app jit row maxR rem (attempt + 1) (pyMin (delay * (9/5)) 20)
          ws (⟨delay, jit attempt, true⟩ :: tr)
      else ⟨.error m, ws, 0, attempt, tr.reverse⟩
    | .netErr =>
      if attempt < maxR then
        safeAppendGo app jit row maxR rem (attempt + 1) (pyMin (delay * (9/5)) 12)
          ws (⟨delay, jit attempt, false⟩ :: tr)
      else ⟨.ok false, ws, 0, attempt, tr.reverse⟩
    | .genErr =>
      if attempt < maxR then
        safeAppendGo app jit row maxR rem (attempt + 1) (pyMin (delay * (9/5)) 12)
          ws (⟨delay, jit attempt, false⟩ :: tr)
      else ⟨.ok false, ws, 0, attempt, tr.reverse⟩

/-- `safe_append_row(ws, row_values, max_retries=12)` of 출석.py: appends
`row` under the global lock, retrying transient failures with exponential
backoff starting at `delay = 0.6`. -/
def safe_append_row (app : Nat → AppOutcome) (jit : Nat → ℚ) (ws : Worksheet)
    (row : List String) (maxR : Nat) : RunResult :=
  safeAppendGo app jit row maxR maxR 1 (3/5) ws []

/-- Loop body of `append_once` (출석.py 116-156): inside the lock the token
is extracted, the fresh token set read, and either the call short-circuits
(token already present) or the row is appended; the same three `except`
arms as `safe_append_row` drive the retries. -/
def appendOnceGo (env : Nat → AttemptEnv) (jit : Nat → ℚ) (row : List String)
    (maxR : Nat) : Nat → Nat → ℚ → Worksheet → List RetryEv → Nat → RunResult
  | 0, attempt, _, ws, tr, ap => ⟨.ok false, ws, ap, attempt - 1, tr.reverse⟩
  | rem + 1, attempt, delay, ws, tr, ap =>
    let e := env attempt
    if rowToken row ∈ _read_tokens_fresh ws e.findOk e.readOk then
      ⟨.ok true, ws, ap, attempt, tr.reverse⟩
    else
      match e.app with
      | .ok => ⟨.ok true, ws ++ [row], ap + 1, attempt, tr.reverse⟩
      | .apiErr m =>
        if transientMsg m = true ∧ attempt < maxR then
          appendOnceGo env jit row maxR rem (attempt + 1) (pyMin (delay * (9/5)) 20)
            ws (⟨delay, jit attempt, true⟩ :: tr) ap
        else ⟨.error m, ws, ap, attempt, tr.reverse⟩
      | .netErr =>
        if attempt < maxR then
          appendOnceGo env jit row maxR rem (attempt + 1) (pyMin (delay * (9/5)) 12)
            ws (⟨delay, jit attempt, false⟩ :: tr) ap
        else ⟨.ok false, ws, ap, attempt, tr.reverse⟩
      | .genErr =>
        if attempt < maxR then
          appendOnceGo env jit row maxR rem (attempt + 1) (pyMin (delay * (9/5)) 12)
            ws (⟨delay, jit attempt, false⟩ :: tr) ap
        else ⟨.ok false, ws, ap, attempt, tr.reverse⟩

/-- `append_once(ws, values, max_retries=12)` of 출석.py. -/
def append_once (env : Nat → AttemptEnv) (jit : Nat → ℚ) (ws : Worksheet)
    (values : List String) (maxR : Nat) : RunResult :=
  appendOnceGo env jit values maxR maxR 1 (3/5) ws [] 0

/-- Loop body of `safe_append_row` of pages/페널티.py (75-108): identical
retry structure with its own hint list; its middle arm catches only
`TimeoutError`. -/
def safeAppendPenGo (app : Nat → AppOutcome) (jit : Nat → ℚ) (row : List String)
    (maxR : Nat) : Nat → Nat → ℚ → Worksheet → List RetryEv → RunResult
  | 0, attempt, _, ws, tr => ⟨.ok false, ws, 0, attempt - 1, tr.reverse⟩
  | rem + 1, attempt, delay, ws, tr =>
    match app attempt with
    | .ok => ⟨.ok true, ws ++ [row], 1, attempt, tr.reverse⟩
    | .apiErr m =>
      if transientMsgPen m = true ∧ attempt < maxR then
        safeAppendPenGo app jit row maxR rem (attempt + 1) (pyMin (delay * (9/5)) 20)
          ws (⟨delay, jit attempt, true⟩ :: tr)
      else ⟨.error m, ws, 0, attempt, tr.reverse⟩
    | .netErr =>
      if attempt < maxR then
        safeAppendPenGo app jit row maxR rem (attempt + 1) (pyMin (delay * (9/5)) 12)
          ws (⟨delay, jit attempt, false⟩ :: tr)
      else ⟨.ok false, ws, 0, attempt, tr.reverse⟩
    | .genErr =>
      if attempt < maxR then
        safeAppendPenGo app jit row maxR rem (attempt + 1) (pyMin (delay * (9/5)) 12)
          ws (⟨delay, jit attempt, false⟩ :: tr)
      else ⟨.ok false, ws, 0, attempt, tr.reverse⟩

/-- `safe_append_row(ws, row_values, max_retries=12)` of pages/페널티.py. -/
def safe_append_row_pen (app : Nat → AppOutcome) (jit : Nat → ℚ) (ws : Worksheet)
    (row : List String) (maxR : Nat) : RunResult :=
  safeAppendPenGo app jit row maxR maxR 1 (3/5) ws []

/-! ## Code store (`get_latest_code`, admin save block; 출석.py 277-283 and
333-342) -/

/-- Outcome of the `code_sheet.acell("A1").value` read: either the call
succeeded and produced the optional cell value (gspread returns `None`
for an empty or absent cell), or it raised. -/
inductive CellReadOutcome
  | ok : Option String → CellReadOutcome
  | raise : CellReadOutcome
deriving DecidableEq

/-- `get_latest_code()` (출석.py 277-283): `value = acell("A1").value or ""`
and `return str(value)`; a bare `except` maps every failure to "". -/
def get_latest_code (o : CellReadOutcome) : String :=
  match o with
  | .ok v => pyOrEmpty v
  | .raise => ""

/-- State of the code sheet together with the `st.cache_data` entry for
`get_latest_code`: the A1 cell value and, when cached, the cached string
with the time it was stored. -/
structure CodeStoreState where
  cell : Option String
  cache : Option (String × ℚ)
deriving DecidableEq

/-- `get_latest_code()` behind its `@st.cache_data(ttl=60)` wrapper, read
at time `t`: a cache entry younger than 60 is returned as is; otherwise
the cell is read (outcome `o`) and the result cached. -/
def get_latest_code_cached (s : CodeStoreState) (t : ℚ) (o : CellReadOutcome) :
    String × CodeStoreState :=
  match s.cache with
  | some (v, t0) =>
    if t - t0 < 60 then (v, s)
    else
      let v := get_latest_code o
      (v, ⟨s.cell, some (v, t)⟩)
  | none =>
    let v := get_latest_code o
    (v, ⟨s.cell, some (v, t)⟩)

/-- The admin code-save block (출석.py 333-342): under the lock the code
sheet is cleared, then `safe_append_row(code_sheet, [str(code_input), ts])`
runs; on success `st.cache_data.clear()` empties the cache.  `appendOk` is
the boolean returned by `safe_append_row`; on success the appended row
becomes the first row of the just-cleared sheet, so A1 holds the code. -/
def admin_save_code (s : CodeStoreState) (code_input ts : String)
    (appendOk : Bool) : CodeStoreState × Bool :=
  let row := [code_input, ts]
  if appendOk then (⟨some (row.headD ""), none⟩, true)
  else (⟨none, s.cache⟩, false)

/-- The attendance submit handler rows (출석.py 420-424 and 438-442): the
idempotency token is always the last element. -/
def submit_row_present (name now_str time_slot partner token : String) : List String :=
  [name, now_str, "출석", time_slot, partner, "", token]

/-- The absence submit row (출석.py 438-442). -/
def submit_row_absent (name now_str reason token : String) : List String :=
  [name, now_str, "결석", "", "", reason, token]

/-! ## Predicates used by the theorem statements -/

/-- An attempt outcome that the code treats as retriable: a transient
APIError, a network-layer exception, or a generic exception. -/
def AppOutcome.transientFailB : AppOutcome → Bool
  | .ok => false
  | .apiErr m => transientMsg m
  | .netErr => true
  | .genErr => true

/-- Is the outcome one of the two `except` arms that return `False` when
retries are exhausted (network-layer or generic exception)? -/
def AppOutcome.netOrGenB : AppOutcome → Bool
  | .netErr => true
  | .genErr => true
  | _ => false

/-- The row's token is found by no read path over `ws`: it is neither in
the record-scan result nor in the token column that `ws.find` would
resolve. -/
def tokenAbsentB (ws : Worksheet) (row : List String) : Bool :=
  decide (rowToken row ∉ recordTokens ws) &&
    (match findTokenCol ws with
     | some j => decide (rowToken row ∉ colTokens ws j)
     | none => true)

/-- The backoff schedule of the source, as a predicate on a sleep trace:
starting from delay `d`, each recorded sleep uses the current delay as its
base, and the delay is then multiplied by 1.8 and capped at 20.0 when the
sleep came from the APIError arm and at 12.0 otherwise. -/
def validFrom (d : ℚ) : List RetryEv → Prop
  | [] => True
  | e :: rest => e.base = d ∧ validFrom (pyMin (d * (9/5)) e.capQ) rest

/-! ## Sanity anchors for the SHA-1 embedding

The FIPS 180 test vectors, and `daily_token` on a concrete input checked
against CPython's `hashlib`. -/

set_option maxRecDepth 40000 in
theorem sha1_vector_abc :
    sha1HexDigest (utf8Bytes "abc") = "a9993e364706816aba3e25717850c26c9cd0d89d" := by
  decide

set_option maxRecDepth 40000 in
theorem sha1_vector_empty :
    sha1HexDigest (utf8Bytes "") = "da39a3ee5e6b4b0d3255bfef95601890afd80709" := by
  decide

set_option maxRecDepth 40000 in
theorem daily_token_concrete : daily_token "  Kim  " "2024-05-01" = "8be6ed64" := by
  decide

/-! ## Basic helper lemmas -/

theorem pyStrip_empty : pyStrip "" = "" := rfl

theorem ne_empty_of_pyStrip_ne {s : String} (h : pyStrip s ≠ "") : s ≠ "" := by
  intro hs; exact h (hs ▸ pyStrip_empty)

theorem getD_last_eq (l : List String) : l.getD (l.length - 1) "" = l.getLastD "" := by
  rw [List.getD_eq_getElem?_getD, ← List.getLast?_eq_getElem?, List.getLastD_eq_getLast?]

theorem mem_tokensFrom {T : String} {vals : List String} :
    T ∈ tokensFrom vals ↔ ∃ v ∈ vals, v ≠ "" ∧ pyStrip v = T := by
  simp [tokensFrom, List.mem_filter, and_assoc]

theorem mem_colTokens {T : String} {ws : Worksheet} {j : Nat} :
    T ∈ colTokens ws j ↔ ∃ r ∈ ws.drop 1, cellAt r j ≠ "" ∧ pyStrip (cellAt r j) = T := by
  rw [colTokens, mem_tokensFrom]
  simp only [colValuesBody, ← List.map_drop, List.mem_map]
  constructor
  · rintro ⟨v, ⟨r, hr, rfl⟩, hne, hs⟩
    exact ⟨r, hr, hne, hs⟩
  · rintro ⟨r, hr, hne, hs⟩
    exact ⟨cellAt r j, ⟨r, hr, rfl⟩, hne, hs⟩

theorem countToken_eq_zero_iff {ws : Worksheet} {j : Nat} {T : String} :
    countToken ws j T = 0 ↔ ∀ r ∈ ws.drop 1, pyStrip (cellAt r j) ≠ T := by
  simp [countToken, List.length_eq_zero, List.filter_eq_nil_iff]

theorem countToken_pos_iff {ws : Worksheet} {j : Nat} {T : String} :
    0 < countToken ws j T ↔ ∃ r ∈ ws.drop 1, pyStrip (cellAt r j) = T := by
  rw [countToken, List.length_pos, Ne, List.filter_eq_nil_iff]
  push_neg
  simp

theorem mem_colTokens_iff_count {ws : Worksheet} {j : Nat} {T : String} (hT : T ≠ "") :
    T ∈ colTokens ws j ↔ 0 < countToken ws j T := by
  rw [mem_colTokens, countToken_pos_iff]
  constructor
  · rintro ⟨r, hr, -, hs⟩; exact ⟨r, hr, hs⟩
  · rintro ⟨r, hr, hs⟩
    refine ⟨r, hr, fun hcell => ?_, hs⟩
    rw [hcell] at hs
    exact hT (hs ▸ rfl)

theorem findTokenCol_append {ws : Worksheet} {j : Nat} (rows : Worksheet)
    (h : findTokenCol ws = some j) : findTokenCol (ws ++ rows) = some j := by
  unfold findTokenCol at h ⊢
  rw [List.findSome?_append, h]
  rfl

theorem drop_one_append {ws : Worksheet} (row : List String) (hws : ws ≠ []) :
    (ws ++ [row]).drop 1 = ws.drop 1 ++ [row] := by
  cases ws with
  | nil => exact absurd rfl hws
  | cons r rest => simp

theorem pyStrip_cellAt_last (row : List String) :
    pyStrip (cellAt row row.length) = rowToken row := by
  unfold cellAt rowToken
  rw [getD_last_eq]

theorem countToken_append_self {ws : Worksheet} (row : List String) (hws : ws ≠ []) :
    countToken (ws ++ [row]) row.length (rowToken row) =
      countToken ws row.length (rowToken row) + 1 := by
  unfold countToken
  rw [drop_one_append row hws, List.filter_append, List.length_append]
  simp [pyStrip_cellAt_last]

/-- With the token column resolvable, a no-failure read takes the cheap
column path. -/
theorem read_tokens_fresh_col {ws : Worksheet} {k : Nat}
    (hfind : findTokenCol ws = some (k + 1)) :
    _read_tokens_fresh ws true true = colTokens ws (k + 1) := by
  simp [_read_tokens_fresh, _get_token_col_index, hfind]

/-- One no-failure `append_once` attempt either short-circuits on a found
token or appends the row; either way it returns `True`. -/
theorem append_once_ok_step (jit : Nat → ℚ) (ws : Worksheet) (values : List String)
    (m : Nat) :
    append_once (fun _ => ⟨true, true, .ok⟩) jit ws values (m + 1) =
      if rowToken values ∈ _read_tokens_fresh ws true true
      then ⟨.ok true, ws, 0, 1, []⟩
      else ⟨.ok true, ws ++ [values], 1, 1, []⟩ := by
  unfold append_once appendOnceGo
  split <;> rfl

/-- Two candidate rows with the same stripped last element drive
`append_once` through exactly the same control path: same outcome, same
append count, same attempt count, same sleep trace, and the worksheet is
either left unchanged by both runs or extended by the respective row in
both runs. -/
theorem appendOnceGo_token_congr (env : Nat → AttemptEnv) (jit : Nat → ℚ)
    (v1 v2 : List String) (maxR : Nat) (h : rowToken v1 = rowToken v2) :
    ∀ (rem attempt : Nat) (delay : ℚ) (ws : Worksheet) (tr : List RetryEv) (ap : Nat),
      (appendOnceGo env jit v1 maxR rem attempt delay ws tr ap).out =
        (appendOnceGo env jit v2 maxR rem attempt delay ws tr ap).out ∧
      (appendOnceGo env jit v1 maxR rem attempt delay ws tr ap).appends =
        (appendOnceGo env jit v2 maxR rem attempt delay ws tr ap).appends ∧
      (appendOnceGo env jit v1 maxR rem attempt delay ws tr ap).attempts =
        (appendOnceGo env jit v2 maxR rem attempt delay ws tr ap).attempts ∧
      (appendOnceGo env jit v1 maxR rem attempt delay ws tr ap).trace =
        (appendOnceGo env jit v2 maxR rem attempt delay ws tr ap).trace ∧
      (((appendOnceGo env jit v1 maxR rem attempt delay ws tr ap).ws = ws ∧
        (appendOnceGo env jit v2 maxR rem attempt delay ws tr ap).ws = ws) ∨
       ((appendOnceGo env jit v1 maxR rem attempt delay ws tr ap).ws = ws ++ [v1] ∧
        (appendOnceGo env jit v2 maxR rem attempt delay ws tr ap).ws = ws ++ [v2])) := by
  intro rem
  induction rem with
  | zero =>
    intro attempt delay ws tr ap
    exact ⟨rfl, rfl, rfl, rfl, .inl ⟨rfl, rfl⟩⟩
  | succ n ih =>
    intro attempt delay ws tr ap
    simp only [appendOnceGo]
    by_cases hmem :
      rowToken v1 ∈ _read_tokens_fresh ws (env attempt).findOk (env attempt).readOk
    · have hmem2 :
          rowToken v2 ∈ _read_tokens_fresh ws (env attempt).findOk (env attempt).readOk :=
        h ▸ hmem
      rw [if_pos hmem, if_pos hmem2]
      exact ⟨rfl, rfl, rfl, rfl, .inl ⟨rfl, rfl⟩⟩
    · have hmem2 :
          rowToken v2 ∉ _read_tokens_fresh ws (env attempt).findOk (env attempt).readOk :=
        h ▸ hmem
      rw [if_neg hmem, if_neg hmem2]
      rcases happ : (env attempt).app with _ | msg | _ | _ <;> dsimp only
      · exact ⟨rfl, rfl, rfl, rfl, .inr ⟨rfl, rfl⟩⟩
      · by_cases hcond : transientMsg msg = true ∧ attempt < maxR
        · rw [if_pos hcond, if_pos hcond]
          exact ih (attempt + 1) (pyMin (delay * (9/5)) 20) ws
            (⟨delay, jit attempt, true⟩ :: tr) ap
        · rw [if_neg hcond, if_neg hcond]
          exact ⟨rfl, rfl, rfl, rfl, .inl ⟨rfl, rfl⟩⟩
      · by_cases hcond : attempt < maxR
        · rw [if_pos hcond, if_pos hcond]
          exact ih (attempt + 1) (pyMin (delay * (9/5)) 12) ws
            (⟨delay, jit attempt, false⟩ :: tr) ap
        · rw [if_neg hcond, if_neg hcond]
          exact ⟨rfl, rfl, rfl, rfl, .inl ⟨rfl, rfl⟩⟩
      · by_cases hcond : attempt < maxR
        · rw [if_pos hcond, if_pos hcond]
          exact ih (attempt + 1) (pyMin (delay * (9/5)) 12) ws
            (⟨delay, jit attempt, false⟩ :: tr) ap
        · rw [if_neg hcond, if_neg hcond]
          exact ⟨rfl, rfl, rfl, rfl, .inl ⟨rfl, rfl⟩⟩

/-! ## C4: deterministic token construction -/

/-- C4: for every name and date string, `daily_token(name, date_str)` is
the first 8 hexadecimal characters of the SHA-1 digest of the UTF-8
encoding of `name.strip() + "|" + date_str`; repeated calls with the same
inputs return identical values (the embedding is a pure function, so the
result depends on nothing but the two arguments). -/
theorem c4_daily_token_deterministic :
    ∀ name date_str : String,
      daily_token name date_str =
        (sha1HexDigest (utf8Bytes (pyStrip name ++ "|" ++ date_str))).take 8 ∧
      daily_token name date_str = daily_token name date_str :=
  fun _ _ => ⟨rfl, rfl⟩

/-! ## C6: `get_latest_code` never raises and degrades to "" -/

/-- C6: `get_latest_code` returns "" when the cell read raises, "" when the
cell is empty or absent, and the cell value itself (a string, leading
zeros intact) when the read succeeds. -/
theorem c6_get_latest_code_total :
    get_latest_code .raise = "" ∧
    get_latest_code (.ok none) = "" ∧
    ∀ s : String, get_latest_code (.ok (some s)) = s := by
  refine ⟨rfl, rfl, fun s => ?_⟩
  show pyOrEmpty (some s) = s
  unfold pyOrEmpty
  split <;> simp_all

/-! ## C5: the two token read paths agree -/

/-- C5: when the token-column lookup resolves to `None`, both
`_read_tokens_fresh` and `existing_tokens` take the full-record fallback,
and on a table whose header row carries "토큰" at 0-based position `i` that
fallback produces exactly the tokens the column-read path would produce:
the stripped, non-empty token-field values of every record. -/
theorem c5_fallback_equivalence :
    ∀ (ws : Worksheet) (i : Nat),
      (ws.headD []).findIdx? (fun c => c = "토큰") = some i →
      _read_tokens_fresh ws false true = recordTokens ws ∧
      existing_tokens ws false true = recordTokens ws ∧
      recordTokens ws = colTokens ws (i + 1) := by
  intro ws i hfind
  refine ⟨rfl, rfl, ?_⟩
  unfold recordTokens colTokens colValuesBody cellAt
  simp only [recGet, hfind, Nat.add_sub_cancel, List.map_drop]

theorem c5_witness :
    (([["이름", "토큰"], ["kim", "t1 "], ["lee", ""], ["park", " t1"], ["choi", "t2"],
       ["seo", "t2"]] : Worksheet).headD []).findIdx? (fun c => c = "토큰") = some 1 ∧
    (_read_tokens_fresh [["이름", "토큰"], ["kim", "t1 "], ["lee", ""], ["park", " t1"],
        ["choi", "t2"], ["seo", "t2"]] false true =
      recordTokens [["이름", "토큰"], ["kim", "t1 "], ["lee", ""], ["park", " t1"],
        ["choi", "t2"], ["seo", "t2"]] ∧
     existing_tokens [["이름", "토큰"], ["kim", "t1 "], ["lee", ""], ["park", " t1"],
        ["choi", "t2"], ["seo", "t2"]] false true =
      recordTokens [["이름", "토큰"], ["kim", "t1 "], ["lee", ""], ["park", " t1"],
        ["choi", "t2"], ["seo", "t2"]] ∧
     recordTokens [["이름", "토큰"], ["kim", "t1 "], ["lee", ""], ["park", " t1"],
        ["choi", "t2"], ["seo", "t2"]] =
      colTokens [["이름", "토큰"], ["kim", "t1 "], ["lee", ""], ["park", " t1"],
        ["choi", "t2"], ["seo", "t2"]] 2) :=
  ⟨by decide,
   c5_fallback_equivalence
     [["이름", "토큰"], ["kim", "t1 "], ["lee", ""], ["park", " t1"], ["choi", "t2"],
      ["seo", "t2"]] 1 (by decide)⟩

/-! ## C8: code rotation visibility -/

/-- C8: after the admin save block succeeds (`safe_append_row` on the code
sheet returned `True`), the data cache is cleared, so a `get_latest_code`
call at ANY later time `t` — in particular inside what would have been the
60-unit TTL window of a stale cache entry — re-reads the cell and returns
the newly saved code. -/
theorem c8_code_rotation_visibility :
    ∀ (s : CodeStoreState) (code ts : String) (t : ℚ),
      pyStrip code ≠ "" →
      (admin_save_code s code ts true).2 = true ∧
      (admin_save_code s code ts true).1.cache = none ∧
      (get_latest_code_cached (admin_save_code s code ts true).1 t
          (.ok (admin_save_code s code ts true).1.cell)).1 = code := by
  intro s code ts t h
  have hc : code ≠ "" := ne_empty_of_pyStrip_ne h
  refine ⟨rfl, rfl, ?_⟩
  simp [admin_save_code, get_latest_code_cached, get_latest_code, pyOrEmpty, hc]

theorem c8_witness :
    pyStrip "123456" ≠ "" ∧
    ((admin_save_code ⟨some "999", some ("999", 0)⟩ "123456" "2024-09-01 12:00:00" true).2
        = true ∧
     (admin_save_code ⟨some "999", some ("999", 0)⟩ "123456" "2024-09-01 12:00:00"
        true).1.cache = none ∧
     (get_latest_code_cached
        (admin_save_code ⟨some "999", some ("999", 0)⟩ "123456" "2024-09-01 12:00:00"
          true).1 10
        (.ok (admin_save_code ⟨some "999", some ("999", 0)⟩ "123456"
          "2024-09-01 12:00:00" true).1.cell)).1 = "123456") :=
  ⟨by decide,
   c8_code_rotation_visibility ⟨some "999", some ("999", 0)⟩ "123456"
     "2024-09-01 12:00:00" 10 (by decide)⟩

/-! ## C9: the duplicate guard fails open on read errors -/

/-- C9: when the fresh token read inside the critical section raises,
`_read_tokens_fresh` returns the empty set, and `append_once` therefore
appends the record: the final worksheet has one more row bearing the
row's token than before — a duplicate when the token was already
present. -/
theorem c9_guard_fails_open :
    ∀ (ws : Worksheet) (values : List String) (env : Nat → AttemptEnv) (jit : Nat → ℚ)
      (maxR : Nat),
      (env 1).readOk = false → (env 1).app = .ok → 1 ≤ maxR → ws ≠ [] →
      (∀ fo : Bool, _read_tokens_fresh ws fo false = []) ∧
      (append_once env jit ws values maxR).out = .ok true ∧
      (append_once env jit ws values maxR).ws = ws ++ [values] ∧
      (append_once env jit ws values maxR).appends = 1 ∧
      countToken (ws ++ [values]) values.length (rowToken values) =
        countToken ws values.length (rowToken values) + 1 := by
  intro ws values env jit maxR hro happ hm hws
  obtain ⟨m, rfl⟩ : ∃ m, maxR = m + 1 := ⟨maxR - 1, by omega⟩
  have hread : ∀ fo : Bool, _read_tokens_fresh ws fo false = [] := by
    intro fo; simp [_read_tokens_fresh]
  have hstep :
      append_once env jit ws values (m + 1) = ⟨.ok true, ws ++ [values], 1, 1, []⟩ := by
    unfold append_once appendOnceGo
    simp [hro, happ, hread]
  exact ⟨hread, by rw [hstep], by rw [hstep], by rw [hstep],
    countToken_append_self values hws⟩

/-! ## C1: idempotence of `append_once` -/

/-- C1: with no remote failures, two sequential `append_once` calls with
the same row leave exactly one row bearing the row's token in the table,
and both calls return `True`; in particular the second call (for which the
token is already present) returns `True` without appending anything.
Hypotheses: the row is nonempty with a nonempty stripped token, the sheet
resolves its "토큰" column at the row's final position, and the table
starts with at most one row bearing the token (zero in the fresh case,
one when a previous call already recorded it). -/
theorem c1_append_once_idempotent :
    ∀ (ws : Worksheet) (values : List String) (jit : Nat → ℚ) (maxR : Nat),
      values ≠ [] →
      rowToken values ≠ "" →
      1 ≤ maxR →
      findTokenCol ws = some values.length →
      countToken ws values.length (rowToken values) ≤ 1 →
      (append_once (fun _ => ⟨true, true, .ok⟩) jit ws values maxR).out = .ok true ∧
      (append_once (fun _ => ⟨true, true, .ok⟩) jit
          (append_once (fun _ => ⟨true, true, .ok⟩) jit ws values maxR).ws values
          maxR).out = .ok true ∧
      (append_once (fun _ => ⟨true, true, .ok⟩) jit
          (append_once (fun _ => ⟨true, true, .ok⟩) jit ws values maxR).ws values
          maxR).ws = (append_once (fun _ => ⟨true, true, .ok⟩) jit ws values maxR).ws ∧
      (append_once (fun _ => ⟨true, true, .ok⟩) jit
          (append_once (fun _ => ⟨true, true, .ok⟩) jit ws values maxR).ws values
          maxR).appends = 0 ∧
      countToken
        (append_once (fun _ => ⟨true, true, .ok⟩) jit
          (append_once (fun _ => ⟨true, true, .ok⟩) jit ws values maxR).ws values
          maxR).ws values.length (rowToken values) = 1 := by
  intro ws values jit maxR hne hT hm hfind hcount
  obtain ⟨m, rfl⟩ : ∃ m, maxR = m + 1 := ⟨maxR - 1, by omega⟩
  have hlen : 0 < values.length := List.length_pos.mpr hne
  obtain ⟨k, hk⟩ : ∃ k, values.length = k + 1 := ⟨values.length - 1, by omega⟩
  have hws : ws ≠ [] := by
    intro h
    rw [h] at hfind
    simp [findTokenCol] at hfind
  have hread1 : _read_tokens_fresh ws true true = colTokens ws values.length := by
    rw [hk]
    exact read_tokens_fresh_col (hk ▸ hfind)
  rcases Nat.eq_zero_or_pos (countToken ws values.length (rowToken values)) with hc0 | hcpos
  · have hnotmem : rowToken values ∉ colTokens ws values.length := by
      rw [mem_colTokens_iff_count hT]
      omega
    have h1 : append_once (fun _ => ⟨true, true, .ok⟩) jit ws values (m + 1) =
        ⟨.ok true, ws ++ [values], 1, 1, []⟩ := by
      rw [append_once_ok_step, hread1, if_neg hnotmem]
    have hfind2 : findTokenCol (ws ++ [values]) = some values.length :=
      findTokenCol_append _ hfind
    have hread2 : _read_tokens_fresh (ws ++ [values]) true true =
        colTokens (ws ++ [values]) values.length := by
      rw [hk]
      exact read_tokens_fresh_col (hk ▸ hfind2)
    have hmem2 : rowToken values ∈ colTokens (ws ++ [values]) values.length := by
      rw [mem_colTokens_iff_count hT, countToken_append_self values hws]
      omega
    have h2 : append_once (fun _ => ⟨true, true, .ok⟩) jit (ws ++ [values]) values
        (m + 1) = ⟨.ok true, ws ++ [values], 0, 1, []⟩ := by
      rw [append_once_ok_step, hread2, if_pos hmem2]
    rw [h1]
    dsimp only
    rw [h2]
    refine ⟨rfl, rfl, rfl, rfl, ?_⟩
    dsimp only
    rw [countToken_append_self values hws, hc0]
  · have hc1 : countToken ws values.length (rowToken values) = 1 := by omega
    have hmem : rowToken values ∈ colTokens ws values.length := by
      rw [mem_colTokens_iff_count hT]
      omega
    have h1 : append_once (fun _ => ⟨true, true, .ok⟩) jit ws values (m + 1) =
        ⟨.ok true, ws, 0, 1, []⟩ := by
      rw [append_once_ok_step, hread1, if_pos hmem]
    rw [h1]
    dsimp only
    rw [h1]
    exact ⟨rfl, rfl, rfl, rfl, hc1⟩

theorem c1_witness :
    (["kim", "8be6ed64"] : List String) ≠ [] ∧
    rowToken ["kim", "8be6ed64"] ≠ "" ∧
    (1 : Nat) ≤ 12 ∧
    findTokenCol [["이름", "토큰"]] = some (["kim", "8be6ed64"] : List String).length ∧
    countToken [["이름", "토큰"]] (["kim", "8be6ed64"] : List String).length
      (rowToken ["kim", "8be6ed64"]) ≤ 1 ∧
    ((append_once (fun _ => ⟨true, true, .ok⟩) (fun _ => 0) [["이름", "토큰"]]
        ["kim", "8be6ed64"] 12).out = .ok true ∧
     (append_once (fun _ => ⟨true, true, .ok⟩) (fun _ => 0)
        (append_once (fun _ => ⟨true, true, .ok⟩) (fun _ => 0) [["이름", "토큰"]]
          ["kim", "8be6ed64"] 12).ws ["kim", "8be6ed64"] 12).out = .ok true ∧
     (append_once (fun _ => ⟨true, true, .ok⟩) (fun _ => 0)
        (append_once (fun _ => ⟨true, true, .ok⟩) (fun _ => 0) [["이름", "토큰"]]
          ["kim", "8be6ed64"] 12).ws ["kim", "8be6ed64"] 12).ws =
       (append_once (fun _ => ⟨true, true, .ok⟩) (fun _ => 0) [["이름", "토큰"]]
          ["kim", "8be6ed64"] 12).ws ∧
     (append_once (fun _ => ⟨true, true, .ok⟩) (fun _ => 0)
        (append_once (fun _ => ⟨true, true, .ok⟩) (fun _ => 0) [["이름", "토큰"]]
          ["kim", "8be6ed64"] 12).ws ["kim", "8be6ed64"] 12).appends = 0 ∧
     countToken
       (append_once (fun _ => ⟨true, true, .ok⟩) (fun _ => 0)
          (append_once (fun _ => ⟨true, true, .ok⟩) (fun _ => 0) [["이름", "토큰"]]
            ["kim", "8be6ed64"] 12).ws ["kim", "8be6ed64"] 12).ws
       (["kim", "8be6ed64"] : List String).length (rowToken ["kim", "8be6ed64"]) = 1) :=
  ⟨by decide, by decide, by decide, by decide, by decide,
   c1_append_once_idempotent [["이름", "토큰"]] ["kim", "8be6ed64"] (fun _ => 0) 12
     (by decide) (by decide) (by decide) (by decide) (by decide)⟩

theorem c9_witness :
    ((fun _ => (⟨true, false, .ok⟩ : AttemptEnv)) 1).readOk = false ∧
    ((fun _ => (⟨true, false, .ok⟩ : AttemptEnv)) 1).app = .ok ∧
    (1 : Nat) ≤ 12 ∧
    ([["이름", "토큰"], ["kim", "tok1"]] : Worksheet) ≠ [] ∧
    ((∀ fo : Bool,
        _read_tokens_fresh [["이름", "토큰"], ["kim", "tok1"]] fo false = []) ∧
     (append_once (fun _ => ⟨true, false, .ok⟩) (fun _ => 0)
        [["이름", "토큰"], ["kim", "tok1"]] ["kim", "tok1"] 12).out = .ok true ∧
     (append_once (fun _ => ⟨true, false, .ok⟩) (fun _ => 0)
        [["이름", "토큰"], ["kim", "tok1"]] ["kim", "tok1"] 12).ws =
       [["이름", "토큰"], ["kim", "tok1"]] ++ [["kim", "tok1"]] ∧
     (append_once (fun _ => ⟨true, false, .ok⟩) (fun _ => 0)
        [["이름", "토큰"], ["kim", "tok1"]] ["kim", "tok1"] 12).appends = 1 ∧
     countToken ([["이름", "토큰"], ["kim", "tok1"]] ++ [["kim", "tok1"]])
         (["kim", "tok1"] : List String).length (rowToken ["kim", "tok1"]) =
       countToken [["이름", "토큰"], ["kim", "tok1"]]
         (["kim", "tok1"] : List String).length (rowToken ["kim", "tok1"]) + 1) :=
  ⟨rfl, rfl, by decide, by decide,
   c9_guard_fails_open [["이름", "토큰"], ["kim", "tok1"]] ["kim", "tok1"]
     (fun _ => ⟨true, false, .ok⟩) (fun _ => 0) 12 rfl rfl (by decide) (by decide)⟩

/-! ## C10: the dedup key is the stripped last element of the row -/

/-- C10: `append_once` derives its idempotency token as
`str(values[-1]).strip()`: two rows whose stripped last elements coincide
are treated identically by the existence check (same outcome, same number
of appends, same retry behaviour, and the table is extended or left alone
in lockstep); appending an element to a row makes that element the token;
and both submit handlers place the token in the final column of the rows
they build. -/
theorem c10_dedup_key_is_last_element :
    (∀ (env : Nat → AttemptEnv) (jit : Nat → ℚ) (ws : Worksheet)
       (v1 v2 : List String) (maxR : Nat),
      rowToken v1 = rowToken v2 →
      (append_once env jit ws v1 maxR).out = (append_once env jit ws v2 maxR).out ∧
      (append_once env jit ws v1 maxR).appends =
        (append_once env jit ws v2 maxR).appends ∧
      (append_once env jit ws v1 maxR).attempts =
        (append_once env jit ws v2 maxR).attempts ∧
      (append_once env jit ws v1 maxR).trace = (append_once env jit ws v2 maxR).trace ∧
      (((append_once env jit ws v1 maxR).ws = ws ∧
        (append_once env jit ws v2 maxR).ws = ws) ∨
       ((append_once env jit ws v1 maxR).ws = ws ++ [v1] ∧
        (append_once env jit ws v2 maxR).ws = ws ++ [v2]))) ∧
    (∀ (l : List String) (x : String), rowToken (l ++ [x]) = pyStrip x) ∧
    (∀ name now_str time_slot partner token : String,
      rowToken (submit_row_present name now_str time_slot partner token) =
        pyStrip token) ∧
    (∀ name now_str reason token : String,
      rowToken (submit_row_absent name now_str reason token) = pyStrip token) := by
  refine ⟨?_, ?_, ?_, ?_⟩
  · intro env jit ws v1 v2 maxR h
    exact appendOnceGo_token_congr env jit v1 v2 maxR h maxR 1 (3/5) ws [] 0
  · intro l x
    unfold rowToken
    rw [List.getLastD_concat]
  · intro name now_str time_slot partner token
    rfl
  · intro name now_str reason token
    rfl

theorem c10_witness :
    rowToken ["kim", "tt"] = rowToken ["lee", " tt "] ∧
    ((append_once (fun n => if n = 1 then ⟨true, true, .netErr⟩ else ⟨true, true, .ok⟩)
        (fun _ => 0) [["이름", "토큰"]] ["kim", "tt"] 12).out =
      (append_once (fun n => if n = 1 then ⟨true, true, .netErr⟩ else ⟨true, true, .ok⟩)
        (fun _ => 0) [["이름", "토큰"]] ["lee", " tt "] 12).out ∧
     (append_once (fun n => if n = 1 then ⟨true, true, .netErr⟩ else ⟨true, true, .ok⟩)
        (fun _ => 0) [["이름", "토큰"]] ["kim", "tt"] 12).appends =
      (append_once (fun n => if n = 1 then ⟨true, true, .netErr⟩ else ⟨true, true, .ok⟩)
        (fun _ => 0) [["이름", "토큰"]] ["lee", " tt "] 12).appends ∧
     (append_once (fun n => if n = 1 then ⟨true, true, .netErr⟩ else ⟨true, true, .ok⟩)
        (fun _ => 0) [["이름", "토큰"]] ["kim", "tt"] 12).attempts =
      (append_once (fun n => if n = 1 then ⟨true, true, .netErr⟩ else ⟨true, true, .ok⟩)
        (fun _ => 0) [["이름", "토큰"]] ["lee", " tt "] 12).attempts ∧
     (append_once (fun n => if n = 1 then ⟨true, true, .netErr⟩ else ⟨true, true, .ok⟩)
        (fun _ => 0) [["이름", "토큰"]] ["kim", "tt"] 12).trace =
      (append_once (fun n => if n = 1 then ⟨true, true, .netErr⟩ else ⟨true, true, .ok⟩)
        (fun _ => 0) [["이름", "토큰"]] ["lee", " tt "] 12).trace ∧
     (((append_once (fun n => if n = 1 then ⟨true, true, .netErr⟩ else ⟨true, true, .ok⟩)
          (fun _ => 0) [["이름", "토큰"]] ["kim", "tt"] 12).ws = [["이름", "토큰"]] ∧
       (append_once (fun n => if n = 1 then ⟨true, true, .netErr⟩ else ⟨true, true, .ok⟩)
          (fun _ => 0) [["이름", "토큰"]] ["lee", " tt "] 12).ws = [["이름", "토큰"]]) ∨
      ((append_once (fun n => if n = 1 then ⟨true, true, .netErr⟩ else ⟨true, true, .ok⟩)
          (fun _ => 0) [["이름", "토큰"]] ["kim", "tt"] 12).ws =
         [["이름", "토큰"]] ++ [["kim", "tt"]] ∧
       (append_once (fun n => if n = 1 then ⟨true, true, .netErr⟩ else ⟨true, true, .ok⟩)
          (fun _ => 0) [["이름", "토큰"]] ["lee", " tt "] 12).ws =
         [["이름", "토큰"]] ++ [["lee", " tt "]]))) :=
  ⟨by decide,
   c10_dedup_key_is_last_element.1
     (fun n => if n = 1 then ⟨true, true, .netErr⟩ else ⟨true, true, .ok⟩) (fun _ => 0)
     [["이름", "토큰"]] ["kim", "tt"] ["lee", " tt "] 12 (by decide)⟩

/-! ## C2: retry exhaustion -/

/-- A token absent from every read path is found by no attempt. -/
theorem read_not_mem {ws : Worksheet} {row : List String}
    (htok : tokenAbsentB ws row = true) :
    ∀ fo ro : Bool, rowToken row ∉ _read_tokens_fresh ws fo ro := by
  intro fo ro
  unfold tokenAbsentB at htok
  rw [Bool.and_eq_true, decide_eq_true_iff] at htok
  obtain ⟨h1, h2⟩ := htok
  unfold _read_tokens_fresh _get_token_col_index
  cases ro with
  | false => simp
  | true =>
    cases fo with
    | false => simpa using h1
    | true =>
      rcases hf : findTokenCol ws with _ | j
      · simpa [hf] using h1
      · rcases j with _ | k
        · simpa [hf] using h1
        · rw [hf] at h2
          rw [decide_eq_true_iff] at h2
          simpa [hf] using h2

/-- Exhausting `append_once` on retriable failures whose final attempt is a
network-layer or generic exception: the loop runs out and returns `False`,
leaving the worksheet untouched. -/
theorem appendOnceGo_exhaust (env : Nat → AttemptEnv) (jit : Nat → ℚ)
    (row : List String) (maxR : Nat) (ws : Worksheet)
    (htok : tokenAbsentB ws row = true)
    (hfail : ∀ n, 1 ≤ n → n ≤ maxR → ((env n).app).transientFailB = true)
    (hlast : ((env maxR).app).netOrGenB = true) :
    ∀ (rem attempt : Nat) (delay : ℚ) (tr : List RetryEv) (ap : Nat),
      attempt + rem = maxR + 1 → 1 ≤ attempt →
      (appendOnceGo env jit row maxR rem attempt delay ws tr ap).out = .ok false ∧
      (appendOnceGo env jit row maxR rem attempt delay ws tr ap).ws = ws ∧
      (appendOnceGo env jit row maxR rem attempt delay ws tr ap).appends = ap := by
  intro rem
  induction rem with
  | zero =>
    intro attempt delay tr ap hinv hge
    exact ⟨rfl, rfl, rfl⟩
  | succ n ih =>
    intro attempt delay tr ap hinv hge
    simp only [appendOnceGo]
    rw [if_neg (read_not_mem htok (env attempt).findOk (env attempt).readOk)]
    have hle : attempt ≤ maxR := by omega
    have hfa := hfail attempt hge hle
    rcases happ : (env attempt).app with _ | msg | _ | _ <;> dsimp only
    · rw [happ] at hfa
      simp [AppOutcome.transientFailB] at hfa
    · rw [happ] at hfa
      have htrans : transientMsg msg = true := by
        simpa [AppOutcome.transientFailB] using hfa
      by_cases hlt : attempt < maxR
      · rw [if_pos ⟨htrans, hlt⟩]
        exact ih (attempt + 1) _ _ ap (by omega) (by omega)
      · have heq : attempt = maxR := by omega
        rw [heq] at happ
        rw [happ] at hlast
        simp [AppOutcome.netOrGenB] at hlast
    · by_cases hlt : attempt < maxR
      · rw [if_pos hlt]
        exact ih (attempt + 1) _ _ ap (by omega) (by omega)
      · rw [if_neg hlt]
        exact ⟨rfl, rfl, rfl⟩
    · by_cases hlt : attempt < maxR
      · rw [if_pos hlt]
        exact ih (attempt + 1) _ _ ap (by omega) (by omega)
      · rw [if_neg hlt]
        exact ⟨rfl, rfl, rfl⟩

/-- Exhaustion lemma for `safe_append_row` of 출석.py, same shape. -/
theorem safeAppendGo_exhaust (app : Nat → AppOutcome) (jit : Nat → ℚ)
    (row : List String) (maxR : Nat) (ws : Worksheet)
    (hfail : ∀ n, 1 ≤ n → n ≤ maxR → (app n).transientFailB = true)
    (hlast : (app maxR).netOrGenB = true) :
    ∀ (rem attempt : Nat) (delay : ℚ) (tr : List RetryEv),
      attempt + rem = maxR + 1 → 1 ≤ attempt →
      (safeAppendGo app jit row maxR rem attempt delay ws tr).out = .ok false ∧
      (safeAppendGo app jit row maxR rem attempt delay ws tr).ws = ws ∧
      (safeAppendGo app jit row maxR rem attempt delay ws tr).appends = 0 := by
  intro rem
  induction rem with
  | zero =>
    intro attempt delay tr hinv hge
    exact ⟨rfl, rfl, rfl⟩
  | succ n ih =>
    intro attempt delay tr hinv hge
    simp only [safeAppendGo]
    have hle : attempt ≤ maxR := by omega
    have hfa := hfail attempt hge hle
    rcases happ : app attempt with _ | msg | _ | _ <;> dsimp only
    · rw [happ] at hfa
      simp [AppOutcome.transientFailB] at hfa
    · rw [happ] at hfa
      have htrans : transientMsg msg = true := by
        simpa [AppOutcome.transientFailB] using hfa
      by_cases hlt : attempt < maxR
      · rw [if_pos ⟨htrans, hlt⟩]
        exact ih (attempt + 1) _ _ (by omega) (by omega)
      · have heq : attempt = maxR := by omega
        rw [heq] at happ
        rw [happ] at hlast
        simp [AppOutcome.netOrGenB] at hlast
    · by_cases hlt : attempt < maxR
      · rw [if_pos hlt]
        exact ih (attempt + 1) _ _ (by omega) (by omega)
      · rw [if_neg hlt]
        exact ⟨rfl, rfl, rfl⟩
    · by_cases hlt : attempt < maxR
      · rw [if_pos hlt]
        exact ih (attempt + 1) _ _ (by omega) (by omega)
      · rw [if_neg hlt]
        exact ⟨rfl, rfl, rfl⟩

/-- C2 counterexample: a call in which EVERY attempt fails with a
transient-classified failure can raise instead of returning `False`.  With
12 transient APIErrors ("quota exceeded" is matched by the hint list), the
final attempt falls through `if transient and attempt < max_retries` and
hits `raise`: both `append_once` and `safe_append_row` propagate the
exception, contradicting the claim that exhaustion always yields a
boolean. -/
theorem c2_counterexample :
    transientMsg "quota exceeded" = true ∧
    (append_once (fun _ => ⟨true, true, .apiErr "quota exceeded"⟩) (fun _ => 0) []
        ["x", "t1"] 12).out = .error "quota exceeded" ∧
    (append_once (fun _ => ⟨true, true, .apiErr "quota exceeded"⟩) (fun _ => 0) []
        ["x", "t1"] 12).out ≠ .ok false ∧
    (safe_append_row (fun _ => .apiErr "quota exceeded") (fun _ => 0) [] ["x"] 12).out =
      .error "quota exceeded" ∧
    (safe_append_row (fun _ => .apiErr "quota exceeded") (fun _ => 0) [] ["x"] 12).out ≠
      .ok false := by
  refine ⟨by decide, by decide, ?_, by decide, ?_⟩ <;> decide

/-- C2 as amended: when every attempt up to `max_retries` fails with a
retriable failure AND the final attempt's failure is a network-layer or
generic exception (not an APIError), the function returns `False` without
raising and performs no successful write; a transient APIError on the
final attempt is instead re-raised (see the counterexample). -/
theorem c2_amended_retry_exhaustion :
    ∀ (env : Nat → AttemptEnv) (app : Nat → AppOutcome) (jit : Nat → ℚ)
      (ws : Worksheet) (row values : List String) (maxR : Nat),
      (tokenAbsentB ws values = true →
        (∀ n, 1 ≤ n → n ≤ maxR → ((env n).app).transientFailB = true) →
        ((env maxR).app).netOrGenB = true →
        (append_once env jit ws values maxR).out = .ok false ∧
        (append_once env jit ws values maxR).ws = ws ∧
        (append_once env jit ws values maxR).appends = 0) ∧
      ((∀ n, 1 ≤ n → n ≤ maxR → (app n).transientFailB = true) →
        (app maxR).netOrGenB = true →
        (safe_append_row app jit ws row maxR).out = .ok false ∧
        (safe_append_row app jit ws row maxR).ws = ws ∧
        (safe_append_row app jit ws row maxR).appends = 0) := by
  intro env app jit ws row values maxR
  constructor
  · intro htok hfail hlast
    exact appendOnceGo_exhaust env jit values maxR ws htok hfail hlast maxR 1 (3/5) [] 0
      (by omega) (by omega)
  · intro hfail hlast
    exact safeAppendGo_exhaust app jit row maxR ws hfail hlast maxR 1 (3/5) []
      (by omega) (by omega)

theorem c2_witness :
    tokenAbsentB [["이름", "토큰"]] ["kim", "tok"] = true ∧
    (∀ n, 1 ≤ n → n ≤ 12 →
      (((fun _ => (⟨true, true, .netErr⟩ : AttemptEnv)) n).app).transientFailB = true) ∧
    (((fun _ => (⟨true, true, .netErr⟩ : AttemptEnv)) 12).app).netOrGenB = true ∧
    (∀ n, 1 ≤ n → n ≤ 12 → ((fun _ => AppOutcome.netErr) n).transientFailB = true) ∧
    ((fun _ => AppOutcome.netErr) 12).netOrGenB = true ∧
    (((append_once (fun _ => ⟨true, true, .netErr⟩) (fun _ => 0) [["이름", "토큰"]]
        ["kim", "tok"] 12).out = .ok false ∧
      (append_once (fun _ => ⟨true, true, .netErr⟩) (fun _ => 0) [["이름", "토큰"]]
        ["kim", "tok"] 12).ws = [["이름", "토큰"]] ∧
      (append_once (fun _ => ⟨true, true, .netErr⟩) (fun _ => 0) [["이름", "토큰"]]
        ["kim", "tok"] 12).appends = 0) ∧
     ((safe_append_row (fun _ => .netErr) (fun _ => 0) [["이름", "토큰"]] ["kim"] 12).out =
        .ok false ∧
      (safe_append_row (fun _ => .netErr) (fun _ => 0) [["이름", "토큰"]] ["kim"] 12).ws =
        [["이름", "토큰"]] ∧
      (safe_append_row (fun _ => .netErr) (fun _ => 0) [["이름", "토큰"]] ["kim"]
        12).appends = 0)) :=
  ⟨by decide, fun n h1 h2 => rfl, rfl, fun n h1 h2 => rfl, rfl,
   ⟨(c2_amended_retry_exhaustion (fun _ => ⟨true, true, .netErr⟩) (fun _ => .netErr)
       (fun _ => 0) [["이름", "토큰"]] ["kim"] ["kim", "tok"] 12).1 (by decide)
       (fun n h1 h2 => rfl) rfl,
    (c2_amended_retry_exhaustion (fun _ => ⟨true, true, .netErr⟩) (fun _ => .netErr)
       (fun _ => 0) [["이름", "토큰"]] ["kim"] ["kim", "tok"] 12).2
       (fun n h1 h2 => rfl) rfl⟩⟩

/-! ## C3: permanent failures -/

/-- C3 counterexample: a failure matching none of the transient signatures
need not be propagated.  A generic exception (e.g. a `ValueError`, neither
an APIError nor a network-layer exception) on the first attempt lands in
the bare `except Exception` arm and is RETRIED: with attempt 2 succeeding,
both loops return `True` after 2 attempts and one recorded sleep, instead
of raising on the first attempt as the claim requires. -/
theorem c3_counterexample :
    (safe_append_row (fun n => if n = 1 then .genErr else .ok) (fun _ => 0) [] ["x"]
        12).out = .ok true ∧
    (safe_append_row (fun n => if n = 1 then .genErr else .ok) (fun _ => 0) [] ["x"]
        12).attempts = 2 ∧
    (safe_append_row (fun n => if n = 1 then .genErr else .ok) (fun _ => 0) [] ["x"]
        12).trace.length = 1 ∧
    (append_once (fun n => if n = 1 then ⟨true, true, .genErr⟩ else ⟨true, true, .ok⟩)
        (fun _ => 0) [] ["x", "t1"] 12).out = .ok true ∧
    (append_once (fun n => if n = 1 then ⟨true, true, .genErr⟩ else ⟨true, true, .ok⟩)
        (fun _ => 0) [] ["x", "t1"] 12).attempts = 2 := by
  refine ⟨?_, ?_, ?_, ?_, ?_⟩ <;> decide

/-- C3 as amended: an APIError whose message matches none of the transient
signatures is propagated to the caller on its first occurrence — no sleep,
no further attempt, no successful write, worksheet untouched; exceptions
that are not APIErrors do not follow this rule (they are retried, see the
counterexample). -/
theorem c3_amended_permanent_apierror :
    ∀ (env : Nat → AttemptEnv) (app : Nat → AppOutcome) (jit : Nat → ℚ)
      (ws : Worksheet) (row values : List String) (maxR : Nat) (msg msg2 : String),
      ((env 1).app = .apiErr msg → transientMsg msg = false →
        rowToken values ∉ _read_tokens_fresh ws (env 1).findOk (env 1).readOk →
        1 ≤ maxR →
        (append_once env jit ws values maxR).out = .error msg ∧
        (append_once env jit ws values maxR).attempts = 1 ∧
        (append_once env jit ws values maxR).trace = [] ∧
        (append_once env jit ws values maxR).appends = 0 ∧
        (append_once env jit ws values maxR).ws = ws) ∧
      (app 1 = .apiErr msg2 → transientMsg msg2 = false → 1 ≤ maxR →
        (safe_append_row app jit ws row maxR).out = .error msg2 ∧
        (safe_append_row app jit ws row maxR).attempts = 1 ∧
        (safe_append_row app jit ws row maxR).trace = [] ∧
        (safe_append_row app jit ws row maxR).appends = 0 ∧
        (safe_append_row app jit ws row maxR).ws = ws) := by
  intro env app jit ws row values maxR msg msg2
  constructor
  · intro happ htrans hmem hm
    obtain ⟨m, rfl⟩ : ∃ m, maxR = m + 1 := ⟨maxR - 1, by omega⟩
    simp only [append_once, appendOnceGo]
    rw [if_neg hmem, happ]
    dsimp only
    rw [if_neg (by simp [htrans])]
    exact ⟨rfl, rfl, rfl, rfl, rfl⟩
  · intro happ htrans hm
    obtain ⟨m, rfl⟩ : ∃ m, maxR = m + 1 := ⟨maxR - 1, by omega⟩
    simp only [safe_append_row, safeAppendGo]
    rw [happ]
    dsimp only
    rw [if_neg (by simp [htrans])]
    exact ⟨rfl, rfl, rfl, rfl, rfl⟩

theorem c3_witness :
    ((fun _ => (⟨true, true, .apiErr "invalid argument"⟩ : AttemptEnv)) 1).app =
      .apiErr "invalid argument" ∧
    transientMsg "invalid argument" = false ∧
    rowToken ["x", "t1"] ∉
      _read_tokens_fresh []
        ((fun _ => (⟨true, true, .apiErr "invalid argument"⟩ : AttemptEnv)) 1).findOk
        ((fun _ => (⟨true, true, .apiErr "invalid argument"⟩ : AttemptEnv)) 1).readOk ∧
    (1 : Nat) ≤ 12 ∧
    ((append_once (fun _ => ⟨true, true, .apiErr "invalid argument"⟩) (fun _ => 0) []
        ["x", "t1"] 12).out = .error "invalid argument" ∧
     (append_once (fun _ => ⟨true, true, .apiErr "invalid argument"⟩) (fun _ => 0) []
        ["x", "t1"] 12).attempts = 1 ∧
     (append_once (fun _ => ⟨true, true, .apiErr "invalid argument"⟩) (fun _ => 0) []
        ["x", "t1"] 12).trace = [] ∧
     (append_once (fun _ => ⟨true, true, .apiErr "invalid argument"⟩) (fun _ => 0) []
        ["x", "t1"] 12).appends = 0 ∧
     (append_once (fun _ => ⟨true, true, .apiErr "invalid argument"⟩) (fun _ => 0) []
        ["x", "t1"] 12).ws = []) ∧
    ((safe_append_row (fun _ => .apiErr "bad request") (fun _ => 0) [] ["x"] 12).out =
       .error "bad request" ∧
     (safe_append_row (fun _ => .apiErr "bad request") (fun _ => 0) [] ["x"]
        12).attempts = 1 ∧
     (safe_append_row (fun _ => .apiErr "bad request") (fun _ => 0) [] ["x"] 12).trace =
       [] ∧
     (safe_append_row (fun _ => .apiErr "bad request") (fun _ => 0) [] ["x"]
        12).appends = 0 ∧
     (safe_append_row (fun _ => .apiErr "bad request") (fun _ => 0) [] ["x"] 12).ws =
       []) :=
  ⟨rfl, by decide, by decide, by decide,
   (c3_amended_permanent_apierror (fun _ => ⟨true, true, .apiErr "invalid argument"⟩)
      (fun _ => .apiErr "bad request") (fun _ => 0) [] ["x"] ["x", "t1"] 12
      "invalid argument" "bad request").1 rfl (by decide) (by decide) (by decide),
   (c3_amended_permanent_apierror (fun _ => ⟨true, true, .apiErr "invalid argument"⟩)
      (fun _ => .apiErr "bad request") (fun _ => 0) [] ["x"] ["x", "t1"] 12
      "invalid argument" "bad request").2 rfl (by decide) (by decide)⟩

/-! ## C7: retry schedule bounds -/

/-- Trace specification for `safe_append_row` of 출석.py: from any loop
state the remaining run makes at most `maxR` attempts total, records at
most `rem - 1` further sleeps, and those sleeps follow the backoff
recurrence from the current delay with each `random.random()` draw in
[0, 1). -/
theorem safeAppendGo_trace_spec (app : Nat → AppOutcome) (jit : Nat → ℚ)
    (row : List String) (maxR : Nat) (hjit : ∀ n, (0:ℚ) ≤ jit n ∧ jit n < 1) :
    ∀ (rem attempt : Nat) (delay : ℚ) (ws : Worksheet) (tr : List RetryEv),
      attempt + rem = maxR + 1 →
      ∃ ext,
        (safeAppendGo app jit row maxR rem attempt delay ws tr).trace =
          tr.reverse ++ ext ∧
        validFrom delay ext ∧
        ext.length ≤ rem - 1 ∧
        (safeAppendGo app jit row maxR rem attempt delay ws tr).attempts ≤ maxR ∧
        ∀ e ∈ ext, (0:ℚ) ≤ e.rand ∧ e.rand < 1 := by
  intro rem
  induction rem with
  | zero =>
    intro attempt delay ws tr hinv
    refine ⟨[], by simp [safeAppendGo], trivial, by simp, ?_, by simp⟩
    show attempt - 1 ≤ maxR
    omega
  | succ n ih =>
    intro attempt delay ws tr hinv
    simp only [safeAppendGo]
    rcases happ : app attempt with _ | msg | _ | _ <;> dsimp only
    · exact ⟨[], by simp, trivial, by simp, by show attempt ≤ maxR; omega, by simp⟩
    · by_cases hcond : transientMsg msg = true ∧ attempt < maxR
      · rw [if_pos hcond]
        obtain ⟨ext, htr, hvf, hlen, hatt, hrand⟩ :=
          ih (attempt + 1) (pyMin (delay * (9/5)) 20)
            ws (⟨delay, jit attempt, true⟩ :: tr) (by omega)
        refine ⟨⟨delay, jit attempt, true⟩ :: ext, ?_, ⟨rfl, hvf⟩, ?_, hatt, ?_⟩
        · rw [htr]
          simp
        · have : 1 ≤ n := by omega
          simp only [List.length_cons]
          omega
        · intro e he
          rcases List.mem_cons.mp he with rfl | he'
          · exact hjit attempt
          · exact hrand e he'
      · rw [if_neg hcond]
        exact ⟨[], by simp, trivial, by simp, by show attempt ≤ maxR; omega, by simp⟩
    · by_cases hlt : attempt < maxR
      · rw [if_pos hlt]
        obtain ⟨ext, htr, hvf, hlen, hatt, hrand⟩ :=
          ih (attempt + 1) (pyMin (delay * (9/5)) 12)
            ws (⟨delay, jit attempt, false⟩ :: tr) (by omega)
        refine ⟨⟨delay, jit attempt, false⟩ :: ext, ?_, ⟨rfl, hvf⟩, ?_, hatt, ?_⟩
        · rw [htr]
          simp
        · have : 1 ≤ n := by omega
          simp only [List.length_cons]
          omega
        · intro e he
          rcases List.mem_cons.mp he with rfl | he'
          · exact hjit attempt
          · exact hrand e he'
      · rw [if_neg hlt]
        exact ⟨[], by simp, trivial, by simp, by show attempt ≤ maxR; omega, by simp⟩
    · by_cases hlt : attempt < maxR
      · rw [if_pos hlt]
        obtain ⟨ext, htr, hvf, hlen, hatt, hrand⟩ :=
          ih (attempt + 1) (pyMin (delay * (9/5)) 12)
            ws (⟨delay, jit attempt, false⟩ :: tr) (by omega)
        refine ⟨⟨delay, jit attempt, false⟩ :: ext, ?_, ⟨rfl, hvf⟩, ?_, hatt, ?_⟩
        · rw [htr]
          simp
        · have : 1 ≤ n := by omega
          simp only [List.length_cons]
          omega
        · intro e he
          rcases List.mem_cons.mp he with rfl | he'
          · exact hjit attempt
          · exact hrand e he'
      · rw [if_neg hlt]
        exact ⟨[], by simp, trivial, by simp, by show attempt ≤ maxR; omega, by simp⟩

/-- Trace specification for `append_once`, same schedule. -/
theorem appendOnceGo_trace_spec (env : Nat → AttemptEnv) (jit : Nat → ℚ)
    (row : List String) (maxR : Nat) (hjit : ∀ n, (0:ℚ) ≤ jit n ∧ jit n < 1) :
    ∀ (rem attempt : Nat) (delay : ℚ) (ws : Worksheet) (tr : List RetryEv) (ap : Nat),
      attempt + rem = maxR + 1 →
      ∃ ext,
        (appendOnceGo env jit row maxR rem attempt delay ws tr ap).trace =
          tr.reverse ++ ext ∧
        validFrom delay ext ∧
        ext.length ≤ rem - 1 ∧
        (appendOnceGo env jit row maxR rem attempt delay ws tr ap).attempts ≤ maxR ∧
        ∀ e ∈ ext, (0:ℚ) ≤ e.rand ∧ e.rand < 1 := by
  intro rem
  induction rem with
  | zero =>
    intro attempt delay ws tr ap hinv
    refine ⟨[], by simp [appendOnceGo], trivial, by simp, ?_, by simp⟩
    show attempt - 1 ≤ maxR
    omega
  | succ n ih =>
    intro attempt delay ws tr ap hinv
    simp only [appendOnceGo]
    by_cases hmem :
      rowToken row ∈ _read_tokens_fresh ws (env attempt).findOk (env attempt).readOk
    · rw [if_pos hmem]
      exact ⟨[], by simp, trivial, by simp, by show attempt ≤ maxR; omega, by simp⟩
    · rw [if_neg hmem]
      rcases happ : (env attempt).app with _ | msg | _ | _ <;> dsimp only
      · exact ⟨[], by simp, trivial, by simp, by show attempt ≤ maxR; omega, by simp⟩
      · by_cases hcond : transientMsg msg = true ∧ attempt < maxR
        · rw [if_pos hcond]
          obtain ⟨ext, htr, hvf, hlen, hatt, hrand⟩ :=
            ih (attempt + 1) (pyMin (delay * (9/5)) 20)
              ws (⟨delay, jit attempt, true⟩ :: tr) ap (by omega)
          refine ⟨⟨delay, jit attempt, true⟩ :: ext, ?_, ⟨rfl, hvf⟩, ?_, hatt, ?_⟩
          · rw [htr]
            simp
          · have : 1 ≤ n := by omega
            simp only [List.length_cons]
            omega
          · intro e he
            rcases List.mem_cons.mp he with rfl | he'
            · exact hjit attempt
            · exact hrand e he'
        · rw [if_neg hcond]
          exact ⟨[], by simp, trivial, by simp, by show attempt ≤ maxR; omega, by simp⟩
      · by_cases hlt : attempt < maxR
        · rw [if_pos hlt]
          obtain ⟨ext, htr, hvf, hlen, hatt, hrand⟩ :=
            ih (attempt + 1) (pyMin (delay * (9/5)) 12)
              ws (⟨delay, jit attempt, false⟩ :: tr) ap (by omega)
          refine ⟨⟨delay, jit attempt, false⟩ :: ext, ?_, ⟨rfl, hvf⟩, ?_, hatt, ?_⟩
          · rw [htr]
            simp
          · have : 1 ≤ n := by omega
            simp only [List.length_cons]
            omega
          · intro e he
            rcases List.mem_cons.mp he with rfl | he'
            · exact hjit attempt
            · exact hrand e he'
        · rw [if_neg hlt]
          exact ⟨[], by simp, trivial, by simp, by show attempt ≤ maxR; omega, by simp⟩
      · by_cases hlt : attempt < maxR
        · rw [if_pos hlt]
          obtain ⟨ext, htr, hvf, hlen, hatt, hrand⟩ :=
            ih (attempt + 1) (pyMin (delay * (9/5)) 12)
              ws (⟨delay, jit attempt, false⟩ :: tr) ap (by omega)
          refine ⟨⟨delay, jit attempt, false⟩ :: ext, ?_, ⟨rfl, hvf⟩, ?_, hatt, ?_⟩
          · rw [htr]
            simp
          · have : 1 ≤ n := by omega
            simp only [List.length_cons]
            omega
          · intro e he
            rcases List.mem_cons.mp he with rfl | he'
            · exact hjit attempt
            · exact hrand e he'
        · rw [if_neg hlt]
          exact ⟨[], by simp, trivial, by simp, by show attempt ≤ maxR; omega, by simp⟩

/-- Trace specification for `safe_append_row` of pages/페널티.py. -/
theorem safeAppendPenGo_trace_spec (app : Nat → AppOutcome) (jit : Nat → ℚ)
    (row : List String) (maxR : Nat) (hjit : ∀ n, (0:ℚ) ≤ jit n ∧ jit n < 1) :
    ∀ (rem attempt : Nat) (delay : ℚ) (ws : Worksheet) (tr : List RetryEv),
      attempt + rem = maxR + 1 →
      ∃ ext,
        (safeAppendPenGo app jit row maxR rem attempt delay ws tr).trace =
          tr.reverse ++ ext ∧
        validFrom delay ext ∧
        ext.length ≤ rem - 1 ∧
        (safeAppendPenGo app jit row maxR rem attempt delay ws tr).attempts ≤ maxR ∧
        ∀ e ∈ ext, (0:ℚ) ≤ e.rand ∧ e.rand < 1 := by
  intro rem
  induction rem with
  | zero =>
    intro attempt delay ws tr hinv
    refine ⟨[], by simp [safeAppendPenGo], trivial, by simp, ?_, by simp⟩
    show attempt - 1 ≤ maxR
    omega
  | succ n ih =>
    intro attempt delay ws tr hinv
    simp only [safeAppendPenGo]
    rcases happ : app attempt with _ | msg | _ | _ <;> dsimp only
    · exact ⟨[], by simp, trivial, by simp, by show attempt ≤ maxR; omega, by simp⟩
    · by_cases hcond : transientMsgPen msg = true ∧ attempt < maxR
      · rw [if_pos hcond]
        obtain ⟨ext, htr, hvf, hlen, hatt, hrand⟩ :=
          ih (attempt + 1) (pyMin (delay * (9/5)) 20)
            ws (⟨delay, jit attempt, true⟩ :: tr) (by omega)
        refine ⟨⟨delay, jit attempt, true⟩ :: ext, ?_, ⟨rfl, hvf⟩, ?_, hatt, ?_⟩
        · rw [htr]
          simp
        · have : 1 ≤ n := by omega
          simp only [List.length_cons]
          omega
        · intro e he
          rcases List.mem_cons.mp he with rfl | he'
          · exact hjit attempt
          · exact hrand e he'
      · rw [if_neg hcond]
        exact ⟨[], by simp, trivial, by simp, by show attempt ≤ maxR; omega, by simp⟩
    · by_cases hlt : attempt < maxR
      · rw [if_pos hlt]
        obtain ⟨ext, htr, hvf, hlen, hatt, hrand⟩ :=
          ih (attempt + 1) (pyMin (delay * (9/5)) 12)
            ws (⟨delay, jit attempt, false⟩ :: tr) (by omega)
        refine ⟨⟨delay, jit attempt, false⟩ :: ext, ?_, ⟨rfl, hvf⟩, ?_, hatt, ?_⟩
        · rw [htr]
          simp
        · have : 1 ≤ n := by omega
          simp only [List.length_cons]
          omega
        · intro e he
          rcases List.mem_cons.mp he with rfl | he'
          · exact hjit attempt
          · exact hrand e he'
      · rw [if_neg hlt]
        exact ⟨[], by simp, trivial, by simp, by show attempt ≤ maxR; omega, by simp⟩
    · by_cases hlt : attempt < maxR
      · rw [if_pos hlt]
        obtain ⟨ext, htr, hvf, hlen, hatt, hrand⟩ :=
          ih (attempt + 1) (pyMin (delay * (9/5)) 12)
            ws (⟨delay, jit attempt, false⟩ :: tr) (by omega)
        refine ⟨⟨delay, jit attempt, false⟩ :: ext, ?_, ⟨rfl, hvf⟩, ?_, hatt, ?_⟩
        · rw [htr]
          simp
        · have : 1 ≤ n := by omega
          simp only [List.length_cons]
          omega
        · intro e he
          rcases List.mem_cons.mp he with rfl | he'
          · exact hjit attempt
          · exact hrand e he'
      · rw [if_neg hlt]
        exact ⟨[], by simp, trivial, by simp, by show attempt ≤ maxR; omega, by simp⟩

theorem sleep_jitter_bounds (e : RetryEv) (h0 : (0:ℚ) ≤ e.rand) (h1 : e.rand < 1) :
    (0:ℚ) ≤ e.sleepAmount - e.base ∧ e.sleepAmount - e.base < 1/2 := by
  have hs : e.sleepAmount - e.base = e.rand * (1/2) := by
    unfold RetryEv.sleepAmount
    ring
  rw [hs]
  constructor
  · exact mul_nonneg h0 (by norm_num)
  · nlinarith

/-- C7: at the default `max_retries = 12`, each of the three retry loops
(`safe_append_row` and `append_once` of 출석.py, `safe_append_row` of
pages/페널티.py) makes at most 12 attempts and sleeps at most 11 times;
the recorded sleeps follow the backoff recurrence starting at 0.6,
multiplying by 1.8 after each retry and capping at 20.0 on the APIError
path and at 12.0 on the network/generic path (`validFrom (3/5)`), and
every actual sleep exceeds its base delay by a jitter in [0, 1/2),
provided each `random.random()` draw lies in [0, 1). -/
theorem c7_retry_schedule_bounds :
    ∀ (app app2 : Nat → AppOutcome) (env : Nat → AttemptEnv) (jit : Nat → ℚ)
      (ws1 ws2 ws3 : Worksheet) (row values prow : List String),
      (∀ n, (0:ℚ) ≤ jit n ∧ jit n < 1) →
      ((safe_append_row app jit ws1 row 12).attempts ≤ 12 ∧
       (safe_append_row app jit ws1 row 12).trace.length ≤ 11 ∧
       validFrom (3/5) (safe_append_row app jit ws1 row 12).trace ∧
       ∀ e ∈ (safe_append_row app jit ws1 row 12).trace,
         (0:ℚ) ≤ e.sleepAmount - e.base ∧ e.sleepAmount - e.base < 1/2) ∧
      ((append_once env jit ws2 values 12).attempts ≤ 12 ∧
       (append_once env jit ws2 values 12).trace.length ≤ 11 ∧
       validFrom (3/5) (append_once env jit ws2 values 12).trace ∧
       ∀ e ∈ (append_once env jit ws2 values 12).trace,
         (0:ℚ) ≤ e.sleepAmount - e.base ∧ e.sleepAmount - e.base < 1/2) ∧
      ((safe_append_row_pen app2 jit ws3 prow 12).attempts ≤ 12 ∧
       (safe_append_row_pen app2 jit ws3 prow 12).trace.length ≤ 11 ∧
       validFrom (3/5) (safe_append_row_pen app2 jit ws3 prow 12).trace ∧
       ∀ e ∈ (safe_append_row_pen app2 jit ws3 prow 12).trace,
         (0:ℚ) ≤ e.sleepAmount - e.base ∧ e.sleepAmount - e.base < 1/2) := by
  intro app app2 env jit ws1 ws2 ws3 row values prow hjit
  refine ⟨?_, ?_, ?_⟩
  · obtain ⟨ext, htr, hvf, hlen, hatt, hrand⟩ :=
      safeAppendGo_trace_spec app jit row 12 hjit 12 1 (3/5) ws1 [] (by omega)
    simp only [List.reverse_nil, List.nil_append] at htr
    simp only [safe_append_row]
    refine ⟨hatt, ?_, ?_, ?_⟩
    · rw [htr]
      exact hlen
    · rw [htr]
      exact hvf
    · intro e he
      rw [htr] at he
      exact sleep_jitter_bounds e (hrand e he).1 (hrand e he).2
  · obtain ⟨ext, htr, hvf, hlen, hatt, hrand⟩ :=
      appendOnceGo_trace_spec env jit values 12 hjit 12 1 (3/5) ws2 [] 0 (by omega)
    simp only [List.reverse_nil, List.nil_append] at htr
    simp only [append_once]
    refine ⟨hatt, ?_, ?_, ?_⟩
    · rw [htr]
      exact hlen
    · rw [htr]
      exact hvf
    · intro e he
      rw [htr] at he
      exact sleep_jitter_bounds e (hrand e he).1 (hrand e he).2
  · obtain ⟨ext, htr, hvf, hlen, hatt, hrand⟩ :=
      safeAppendPenGo_trace_spec app2 jit prow 12 hjit 12 1 (3/5) ws3 [] (by omega)
    simp only [List.reverse_nil, List.nil_append] at htr
    simp only [safe_append_row_pen]
    refine ⟨hatt, ?_, ?_, ?_⟩
    · rw [htr]
      exact hlen
    · rw [htr]
      exact hvf
    · intro e he
      rw [htr] at he
      exact sleep_jitter_bounds e (hrand e he).1 (hrand e he).2

theorem c7_witness :
    (∀ n : Nat, (0:ℚ) ≤ (fun _ => (0:ℚ)) n ∧ (fun _ => (0:ℚ)) n < 1) ∧
    (((safe_append_row (fun _ => .netErr) (fun _ => 0) [] ["x"] 12).attempts ≤ 12 ∧
      (safe_append_row (fun _ => .netErr) (fun _ => 0) [] ["x"] 12).trace.length ≤ 11 ∧
      validFrom (3/5) (safe_append_row (fun _ => .netErr) (fun _ => 0) [] ["x"]
        12).trace ∧
      ∀ e ∈ (safe_append_row (fun _ => .netErr) (fun _ => 0) [] ["x"] 12).trace,
        (0:ℚ) ≤ e.sleepAmount - e.base ∧ e.sleepAmount - e.base < 1/2) ∧
     ((append_once (fun _ => ⟨true, true, .apiErr "quota exceeded"⟩) (fun _ => 0) []
        ["x", "t1"] 12).attempts ≤ 12 ∧
      (append_once (fun _ => ⟨true, true, .apiErr "quota exceeded"⟩) (fun _ => 0) []
        ["x", "t1"] 12).trace.length ≤ 11 ∧
      validFrom (3/5) (append_once (fun _ => ⟨true, true, .apiErr "quota exceeded"⟩)
        (fun _ => 0) [] ["x", "t1"] 12).trace ∧
      ∀ e ∈ (append_once (fun _ => ⟨true, true, .apiErr "quota exceeded"⟩) (fun _ => 0)
          [] ["x", "t1"] 12).trace,
        (0:ℚ) ≤ e.sleepAmount - e.base ∧ e.sleepAmount - e.base < 1/2) ∧
     ((safe_append_row_pen (fun _ => .genErr) (fun _ => 0) [] ["y"] 12).attempts ≤ 12 ∧
      (safe_append_row_pen (fun _ => .genErr) (fun _ => 0) [] ["y"] 12).trace.length ≤
        11 ∧
      validFrom (3/5) (safe_append_row_pen (fun _ => .genErr) (fun _ => 0) [] ["y"]
        12).trace ∧
      ∀ e ∈ (safe_append_row_pen (fun _ => .genErr) (fun _ => 0) [] ["y"] 12).trace,
        (0:ℚ) ≤ e.sleepAmount - e.base ∧ e.sleepAmount - e.base < 1/2)) :=
  ⟨fun n => ⟨le_refl 0, by norm_num⟩,
   c7_retry_schedule_bounds (fun _ => .netErr) (fun _ => .genErr)
     (fun _ => ⟨true, true, .apiErr "quota exceeded"⟩) (fun _ => 0) [] [] [] ["x"]
     ["x", "t1"] ["y"] (fun n => ⟨le_refl 0, by norm_num⟩)⟩

end Badminton

